import Mathlib

/-!
Shallow embedding of the rschess bitboard library (src/lib.rs): files, ranks,
fields, move directions, the bitboard bit operations and the field iterators,
together with theorems checking the documented invariants against this code.
Machine integers are modelled as Nat (u8, u64) and Int (i8); an Option result
models a possible panic, with none standing for the panic.
-/

namespace RsChess

/-- Rust cast from u8 to i8 (bit reinterpretation of a value below 256). -/
def u8ToI8 (v : Nat) : Int := if v < 128 then (v : Int) else (v : Int) - 256

/-- Rust cast from i8 to u8 (bit reinterpretation). -/
def i8ToU8 (v : Int) : Nat := (v % 256).toNat

namespace File

/-- Discriminant of File::INVALID (u8::MAX). -/
def INVALID : Nat := 255

/-- AllowedValues::is_valid for File: allowed_values() = 0..=7. -/
def is_valid (value : Nat) : Bool := decide (0 ≤ value ∧ value ≤ 7)

/-- File::from_repr: some discriminant for the variants FileA..FileH and INVALID. -/
def from_repr (value : Nat) : Option Nat :=
  if value ≤ 7 ∨ value = 255 then some value else none

/-- impl From of u8 for File; none models the panic of unwrap on a missing repr. -/
def fromU8 (value : Nat) : Option Nat :=
  if !(is_valid value) then some INVALID else from_repr value

/-- impl From of i8 for File: casts the value to u8 and delegates. -/
def fromI8 (value : Int) : Option Nat := fromU8 (i8ToU8 value)

end File

namespace Rank

/-- Discriminant of Rank::INVALID (u8::MAX). -/
def INVALID : Nat := 255

/-- AllowedValues::is_valid for Rank: allowed_values() = 0..=7. -/
def is_valid (value : Nat) : Bool := decide (0 ≤ value ∧ value ≤ 7)

/-- Rank::from_repr: some discriminant for the variants Rank1..Rank8 and INVALID. -/
def from_repr (value : Nat) : Option Nat :=
  if value ≤ 7 ∨ value = 255 then some value else none

/-- impl From of u8 for Rank; none models the panic of unwrap on a missing repr. -/
def fromU8 (value : Nat) : Option Nat :=
  if !(is_valid value) then some INVALID else from_repr value

/-- impl From of i8 for Rank: casts the value to u8 and delegates. -/
def fromI8 (value : Int) : Option Nat := fromU8 (i8ToU8 value)

end Rank

namespace Field

/-- Discriminant of Field::INVALID (u8::MAX). -/
def INVALID : Nat := 255

/-- AllowedValues::is_valid for Field: allowed_values() = 0..=63. -/
def is_valid (value : Nat) : Bool := decide (0 ≤ value ∧ value ≤ 63)

/-- Field::from_repr: some discriminant for the variants A1..H8 and INVALID. -/
def from_repr (value : Nat) : Option Nat :=
  if value ≤ 63 ∨ value = 255 then some value else none

/-- impl From of u8 for Field; none models the panic of unwrap on a missing repr. -/
def fromU8 (value : Nat) : Option Nat :=
  if !(is_valid value) then some INVALID else from_repr value

/-- impl From of i8 for Field: casts the value to u8 and delegates. -/
def fromI8 (value : Int) : Option Nat := fromU8 (i8ToU8 value)

end Field

/-- Field coordinates as numbers (struct Point). -/
structure Point where
  file : Nat
  rank : Nat
  deriving DecidableEq

/-- impl From of Field for Point: div_rem(value, 8) returns quotient d and
remainder m, and the source stores d in file and m in rank. -/
def Point.fromField (value : Nat) : Point :=
  { file := value / 8, rank := value % 8 }

/-- struct MoveVector(i8, i8). -/
structure MoveVector where
  x : Int
  y : Int
  deriving DecidableEq

/-- impl Add for MoveVector: componentwise addition. -/
def MoveVector.add (a b : MoveVector) : MoveVector := ⟨a.x + b.x, a.y + b.y⟩

/-- enum Direction: the 25 move directions; H means HERE. -/
inductive Direction where
  | NNWW | NNW | NN | NNE | NNEE
  | NWW | NW | N | NE | NEE
  | WW | W | H | E | EE
  | SWW | SW | S | SE | SEE
  | SSWW | SSW | SS | SSE | SSEE
  deriving DecidableEq

/-- Nesting depth of the recursive MoveVector table, used as termination measure. -/
def Direction.depth : Direction → Nat
  | .H | .N | .E | .S | .W => 0
  | .NN | .EE | .SS | .WW | .NE | .NW | .SE | .SW => 1
  | _ => 2

/-- impl From of Direction for MoveVector, with the recursive compositions of
the source (for instance NE is the sum of the vectors of N and E). -/
def MoveVector.fromDirection (value : Direction) : MoveVector :=
  match value with
  | .H => ⟨0, 0⟩
  | .N => ⟨0, 1⟩
  | .E => ⟨1, 0⟩
  | .S => ⟨0, -1⟩
  | .W => ⟨-1, 0⟩
  | .EE => (fromDirection .E).add (fromDirection .E)
  | .WW => (fromDirection .W).add (fromDirection .W)
  | .NN => (fromDirection .N).add (fromDirection .N)
  | .NE => (fromDirection .N).add (fromDirection .E)
  | .NW => (fromDirection .N).add (fromDirection .W)
  | .SS => (fromDirection .S).add (fromDirection .S)
  | .SE => (fromDirection .S).add (fromDirection .E)
  | .SW => (fromDirection .S).add (fromDirection .W)
  | .NNW => (fromDirection .NN).add (fromDirection .W)
  | .NNE => (fromDirection .NN).add (fromDirection .E)
  | .NWW => (fromDirection .N).add (fromDirection .WW)
  | .NEE => (fromDirection .N).add (fromDirection .EE)
  | .SWW => (fromDirection .S).add (fromDirection .WW)
  | .SEE => (fromDirection .S).add (fromDirection .EE)
  | .SSW => (fromDirection .SS).add (fromDirection .W)
  | .SSE => (fromDirection .SS).add (fromDirection .E)
  | .NNWW => (fromDirection .NN).add (fromDirection .WW)
  | .NNEE => (fromDirection .NN).add (fromDirection .EE)
  | .SSWW => (fromDirection .SS).add (fromDirection .WW)
  | .SSEE => (fromDirection .SS).add (fromDirection .EE)
termination_by value.depth
decreasing_by all_goals decide

namespace Field

/-- Field::rank: Rank::from_repr(self as u8 / 8), INVALID when the repr is missing. -/
def rank (f : Nat) : Nat :=
  match Rank.from_repr (f / 8) with
  | some x => x
  | none => Rank.INVALID

/-- Field::file: File::from_repr(self as u8 / 8), INVALID when the repr is missing
(the source divides by 8 here as well). -/
def file (f : Nat) : Nat :=
  match File.from_repr (f / 8) with
  | some x => x
  | none => File.INVALID

/-- Field::new(file, rank): INVALID when either argument is INVALID, otherwise
Field::from_repr(file as u8 + rank as u8), INVALID when that repr is missing. -/
def new (file rank : Nat) : Nat :=
  if file = File.INVALID then INVALID
  else if rank = Rank.INVALID then INVALID
  else
    match from_repr (file + rank) with
    | some x => x
    | none => INVALID

/-- impl Add of Direction to Field: adds the MoveVector of the direction to the
pair of the file and rank accessors, in i8 arithmetic, and rebuilds the field
with Field::new; none models a panic in the u8 conversions. -/
def add (f : Nat) (rhs : Direction) : Option Nat :=
  let mv := MoveVector.fromDirection rhs
  let fileV : Int := u8ToI8 (file f) + mv.x
  let rankV : Int := u8ToI8 (rank f) + mv.y
  match File.fromI8 fileV, Rank.fromI8 rankV with
  | some fl, some rk => some (new fl rk)
  | _, _ => none

/-- Field::mv: delegates to the Add instance. -/
def mv (f : Nat) (direction : Direction) : Option Nat := add f direction

end Field

namespace Bitboard

/-- Bitboard::make_mask: 1u64 shifted left by index; none models the shift
overflow (a panic in a debug build) when the index exceeds 63. -/
def make_mask (index : Nat) : Option Nat :=
  if index < 64 then some (1 <<< index) else none

/-- Bitboard::set as written in the source: board &= make_mask(field). -/
def set (board field : Nat) : Option Nat :=
  (make_mask field).map (fun m => board &&& m)

/-- Bitboard::unset: board &= complement of make_mask(field) within 64 bits. -/
def unset (board field : Nat) : Option Nat :=
  (make_mask field).map (fun m => board &&& (m ^^^ (2 ^ 64 - 1)))

/-- Bitboard::get: whether board & make_mask(field) differs from 0. -/
def get (board field : Nat) : Option Bool :=
  (make_mask field).map (fun m => decide (0 ≠ board &&& m))

/-- Bitboard::is_set: delegates to get. -/
def is_set (board field : Nat) : Option Bool := get board field

end Bitboard

/-- struct SetFields: the iterator state, a board and the current index. -/
structure SetFields where
  board : Nat
  current : Nat
  deriving DecidableEq

/-- struct UnsetFields: the iterator state, a board and the current index. -/
structure UnsetFields where
  board : Nat
  current : Nat
  deriving DecidableEq

/-- The loop of SetFields::next: increment current, stop with no item once
File::is_valid rejects it, otherwise yield the field when its bit is set and
continue when it is not. The source loop exits as soon as the incremented index
passes 7, so it runs at most 8 times from any state; the fuel argument only
bounds that loop and never runs out when it starts at 8. -/
def SetFields.nextLoop (board : Nat) : Nat → Nat → Option (Option Nat × SetFields)
  | 0, current => some (none, { board := board, current := current })
  | fuel + 1, current =>
    let c := current + 1
    if File.is_valid c then
      match Field.fromU8 c with
      | none => none
      | some field =>
        match Bitboard.get board field with
        | none => none
        | some true => some (some field, { board := board, current := c })
        | some false => SetFields.nextLoop board fuel c
    else some (none, { board := board, current := c })

/-- SetFields::next. -/
def SetFields.next (s : SetFields) : Option (Option Nat × SetFields) :=
  SetFields.nextLoop s.board 8 s.current

/-- The loop of UnsetFields::next: same walk, yielding fields whose bit is clear. -/
def UnsetFields.nextLoop (board : Nat) : Nat → Nat → Option (Option Nat × UnsetFields)
  | 0, current => some (none, { board := board, current := current })
  | fuel + 1, current =>
    let c := current + 1
    if File.is_valid c then
      match Field.fromU8 c with
      | none => none
      | some field =>
        match Bitboard.get board field with
        | none => none
        | some false => some (some field, { board := board, current := c })
        | some true => UnsetFields.nextLoop board fuel c
    else some (none, { board := board, current := c })

/-- UnsetFields::next. -/
def UnsetFields.next (s : UnsetFields) : Option (Option Nat × UnsetFields) :=
  UnsetFields.nextLoop s.board 8 s.current

/-- Bitboard::set_fields_iter: the iterator starts at current = 0. -/
def Bitboard.set_fields_iter (board : Nat) : SetFields :=
  { board := board, current := 0 }

/-- Bitboard::unset_fields_iter: the iterator starts at current = 0. -/
def Bitboard.unset_fields_iter (board : Nat) : UnsetFields :=
  { board := board, current := 0 }

/-- Drives SetFields::next up to fuel times, collecting the yielded fields in
order; none models a panic inside next. -/
def SetFields.collect : Nat → SetFields → Option (List Nat)
  | 0, _ => some []
  | fuel + 1, s =>
    match s.next with
    | none => none
    | some (none, _) => some []
    | some (some f, s2) => (SetFields.collect fuel s2).map (fun l => f :: l)

/-- Drives UnsetFields::next up to fuel times, collecting the yielded fields in
order; none models a panic inside next. -/
def UnsetFields.collect : Nat → UnsetFields → Option (List Nat)
  | 0, _ => some []
  | fuel + 1, s =>
    match s.next with
    | none => none
    | some (none, _) => some []
    | some (some f, s2) => (UnsetFields.collect fuel s2).map (fun l => f :: l)

end RsChess

namespace RsChess

/-- Evaluation of the HERE vector. -/
theorem fromDirection_H : MoveVector.fromDirection Direction.H = ⟨0, 0⟩ := by
  simp [MoveVector.fromDirection]

/-- Evaluation of the North vector. -/
theorem fromDirection_N : MoveVector.fromDirection Direction.N = ⟨0, 1⟩ := by
  simp [MoveVector.fromDirection]

/-- Evaluation of the North-North vector. -/
theorem fromDirection_NN : MoveVector.fromDirection Direction.NN = ⟨0, 2⟩ := by
  simp [MoveVector.fromDirection, MoveVector.add]

/-- Evaluation of the North-East vector. -/
theorem fromDirection_NE : MoveVector.fromDirection Direction.NE = ⟨1, 1⟩ := by
  simp [MoveVector.fromDirection, MoveVector.add]

/-- Closed form of From of u8 for File: total, the value inside range and INVALID outside. -/
theorem fromU8_eq_file (v : Nat) :
    File.fromU8 v = some (if v ≤ 7 then v else File.INVALID) := by
  by_cases h : v ≤ 7 <;> simp [File.fromU8, File.is_valid, File.from_repr, File.INVALID, h]

/-- Closed form of From of u8 for Rank: total, the value inside range and INVALID outside. -/
theorem fromU8_eq_rank (v : Nat) :
    Rank.fromU8 v = some (if v ≤ 7 then v else Rank.INVALID) := by
  by_cases h : v ≤ 7 <;> simp [Rank.fromU8, Rank.is_valid, Rank.from_repr, Rank.INVALID, h]

/-- Closed form of From of u8 for Field: total, the value inside range and INVALID outside. -/
theorem fromU8_eq_field (v : Nat) :
    Field.fromU8 v = some (if v ≤ 63 then v else Field.INVALID) := by
  by_cases h : v ≤ 63 <;> simp [Field.fromU8, Field.is_valid, Field.from_repr, Field.INVALID, h]

end RsChess

namespace RsChess

/-- C1: the set-then-get invariant fails: on the empty bitboard, set(A1)
leaves the board empty (Bitboard::set uses a bitwise and) and get(A1) then
returns false, where the claim requires true. -/
theorem c1_set_then_get_fails :
    Bitboard.set 0 0 = some 0 ∧ Bitboard.get 0 0 = some false := by decide

/-- C2: the composition law fails: N followed by N has the same combined
MoveVector as NN, every intermediate field is on the board, yet
A1.mv(N).mv(N) = B1 (value 1) while A1.mv(NN) = C1 (value 2). -/
theorem c2_composition_law_fails :
    MoveVector.fromDirection Direction.NN
      = (MoveVector.fromDirection Direction.N).add (MoveVector.fromDirection Direction.N) ∧
    Field.mv 0 Direction.N = some 1 ∧
    Field.mv 1 Direction.N = some 1 ∧
    Field.mv 0 Direction.NN = some 2 ∧
    (1 : Nat) ≠ 2 := by
  refine ⟨?_, ?_, ?_, ?_, by decide⟩
  · simp only [fromDirection_N, fromDirection_NN, MoveVector.add]; decide
  · simp only [Field.mv, Field.add, fromDirection_N]; decide
  · simp only [Field.mv, Field.add, fromDirection_N]; decide
  · simp only [Field.mv, Field.add, fromDirection_NN]; decide

/-- C3: the decoding of B1 (value 1) is wrong: Field::file divides by 8 and
returns 0 where the claim requires 1 mod 8 = 1, and the Point decoding stores
the quotient in file and the remainder in rank, giving (file 0, rank 1) where
the claim requires (file 1, rank 0); only the rank accessor, 1 / 8 = 0, agrees. -/
theorem c3_file_decode_fails :
    Field.file 1 = 0 ∧ (0 : Nat) ≠ 1 % 8 ∧
    Point.fromField 1 = { file := 0, rank := 1 } ∧
    Field.rank 1 = 1 / 8 := by decide

/-- C4: Field::new adds file and rank without scaling the rank by 8:
new(FileA, Rank2) yields value 1 (B1) where the claim requires 0 + 8 * 1 = 8
(A2), and new(f.file(), f.rank()) is not the identity: for A2 (value 8) it
yields value 2 (C1). -/
theorem c4_new_encoding_fails :
    Field.new 0 1 = 1 ∧ (1 : Nat) ≠ 0 + 8 * 1 ∧
    Field.new (Field.file 8) (Field.rank 8) = 2 ∧ (2 : Nat) ≠ 8 := by decide

/-- C5: the iterators do not walk indices 0..63: both pre-increment past
index 0 and stop once File::is_valid rejects the index, so they visit only
1..7. With only bit 0 (A1) set, or only bit 8 (A2) set, the set-fields
iterator yields nothing, and on the empty board the unset-fields iterator
yields just the values 1..7 instead of all 64 squares. -/
theorem c5_iterators_fail :
    Bitboard.get 1 0 = some true ∧
    SetFields.collect 100 (Bitboard.set_fields_iter 1) = some [] ∧
    Bitboard.get 256 8 = some true ∧
    SetFields.collect 100 (Bitboard.set_fields_iter 256) = some [] ∧
    UnsetFields.collect 100 (Bitboard.unset_fields_iter 0)
      = some [1, 2, 3, 4, 5, 6, 7] := by decide

/-- C6: INVALID is not absorbing: the file and rank accessors of INVALID cast
to the i8 value -1, so INVALID.mv(NE) lands on A1 (value 0) instead of
INVALID, and set or unset on INVALID shifts by 255, which overflows the
64-bit shift (none models that panic) instead of leaving the board unchanged. -/
theorem c6_invalid_not_absorbed :
    Field.mv 255 Direction.NE = some 0 ∧ (0 : Nat) ≠ 255 ∧
    Bitboard.set 0 255 = none ∧ Bitboard.unset 0 255 = none := by
  refine ⟨?_, by decide, by decide, by decide⟩
  simp only [Field.mv, Field.add, fromDirection_NE]; decide

/-- C7: moving by HERE is not the identity: both accessors of B1 (value 1)
return 1 / 8 = 0 and Field::new adds them, so B1.mv(H) = A1 (value 0). -/
theorem c7_here_not_identity :
    Field.mv 1 Direction.H = some 0 ∧ (0 : Nat) ≠ 1 := by
  refine ⟨?_, by decide⟩
  simp only [Field.mv, Field.add, fromDirection_H]; decide

/-- C8: set is not frame-preserving: on the board holding A1 and B1 (value 3),
set(A1) clears the unrelated bit of B1 (the board becomes 1), changing the
membership of B1 from true to false. -/
theorem c8_set_frame_fails :
    Bitboard.set 3 0 = some 1 ∧
    Bitboard.get 3 1 = some true ∧ Bitboard.get 1 1 = some false := by decide

/-- C9: conversion from a byte is total and value preserving: for every byte,
Field, File and Rank conversion returns some result (the unwrap never
panics), the value itself inside the allowed range and INVALID outside it. -/
theorem c9_from_u8_total (v : Nat) (h : v < 256) :
    (Field.fromU8 v).isSome = true ∧ (File.fromU8 v).isSome = true ∧
    (Rank.fromU8 v).isSome = true ∧
    (v ≤ 63 → Field.fromU8 v = some v) ∧
    (63 < v → Field.fromU8 v = some Field.INVALID) ∧
    (v ≤ 7 → File.fromU8 v = some v ∧ Rank.fromU8 v = some v) ∧
    (7 < v → File.fromU8 v = some File.INVALID ∧ Rank.fromU8 v = some Rank.INVALID) := by
  simp only [fromU8_eq_field, fromU8_eq_file, fromU8_eq_rank, Option.isSome_some,
    Option.some.injEq]
  refine ⟨trivial, trivial, trivial, ?_, ?_, ?_, ?_⟩ <;> intro hv <;>
    simp [Nat.not_le.mpr, hv]

/-- Witness for C9 at the byte 100, outside the Field range. -/
theorem c9_from_u8_total_witness :
    (100 : Nat) < 256 ∧
    ((Field.fromU8 100).isSome = true ∧ (File.fromU8 100).isSome = true ∧
     (Rank.fromU8 100).isSome = true ∧
     ((100 : Nat) ≤ 63 → Field.fromU8 100 = some 100) ∧
     ((63 : Nat) < 100 → Field.fromU8 100 = some Field.INVALID) ∧
     ((100 : Nat) ≤ 7 → File.fromU8 100 = some 100 ∧ Rank.fromU8 100 = some 100) ∧
     ((7 : Nat) < 100 → File.fromU8 100 = some File.INVALID ∧
        Rank.fromU8 100 = some Rank.INVALID)) :=
  ⟨by decide, c9_from_u8_total 100 (by decide)⟩

/-- C10: for a valid field the shift amount is its value, at most 63, so
make_mask and with it get, is_set, set and unset all succeed without a shift
overflow, while the INVALID discriminant 255 makes make_mask overflow. -/
theorem c10_valid_field_mask_safe (f b : Nat) (h : Field.is_valid f = true) :
    (Bitboard.make_mask f).isSome = true ∧
    (Bitboard.get b f).isSome = true ∧
    (Bitboard.is_set b f).isSome = true ∧
    (Bitboard.set b f).isSome = true ∧
    (Bitboard.unset b f).isSome = true ∧
    Bitboard.make_mask Field.INVALID = none := by
  simp only [Field.is_valid, decide_eq_true_eq] at h
  have hf : f < 64 := by omega
  simp [Bitboard.make_mask, Bitboard.get, Bitboard.is_set, Bitboard.set,
    Bitboard.unset, hf, Field.INVALID]

/-- Witness for C10 at the valid field 10 on the board 5. -/
theorem c10_valid_field_mask_safe_witness :
    Field.is_valid 10 = true ∧
    ((Bitboard.make_mask 10).isSome = true ∧
     (Bitboard.get 5 10).isSome = true ∧
     (Bitboard.is_set 5 10).isSome = true ∧
     (Bitboard.set 5 10).isSome = true ∧
     (Bitboard.unset 5 10).isSome = true ∧
     Bitboard.make_mask Field.INVALID = none) :=
  ⟨by decide, c10_valid_field_mask_safe 10 5 (by decide)⟩

end RsChess
